import Mathlib

set_option linter.unusedVariables false

/-!
Verification development for the cello storage layer
(`internal/types/types.go`, the `db` package with its PostgreSQL and
DynamoDB clients, and the `targets` SQL schema).

The Go code is shallowly embedded: each backend's persistent state is an
explicit value (`SQLState` for PostgreSQL, `DDBTable` for DynamoDB), every
client operation is a pure function from state to state and/or result, and
fallible operations return `Except DBError`.  Timestamps (`time.Time` /
formatted strings in Go) are modelled as abstract instants (`Nat`): the
claims only ever compare or order them, never format them.
-/

namespace Cello

/-! ## Entity types (`internal/types/types.go`) -/

/-- TargetProperties for a target (`types.go`): up to five policy ARNs, an
optional inline policy document and a role ARN. -/
structure TargetProperties where
  policyArns : List String
  policyDocument : String
  roleArn : String
deriving DecidableEq, Repr

/-- Target (`types.go`): name, properties and type. -/
structure Target where
  name : String
  properties : TargetProperties
  type : String
deriving DecidableEq, Repr

/-- ProjectToken (`types.go`): the token identity. -/
structure ProjectToken where
  id : String
deriving DecidableEq, Repr

/-- Token (`types.go`): secrets object for a project.  `createdAt` and
`expiresAt` are abstract instants. -/
structure Token where
  createdAt : Nat
  expiresAt : Nat
  projectID : String
  projectToken : ProjectToken
  roleID : String
  secret : String
deriving DecidableEq, Repr

/-! ## Validation

The `internal/validations` package is not part of the sources; the checks
it performs are reconstructed from the struct tags in `types.go` (which are
in the sources) and, where the tags say nothing, from the spec. -/

/-- Splitting a character list on a separator, with the semantics of Go's
`strings.Split` (and of `String.splitOn` for a one-character separator):
the empty input yields one empty section. -/
def splitOnChar (sep : Char) : List Char → List (List Char)
  | [] => [[]]
  | c :: cs =>
    match splitOnChar sep cs, decide (c = sep) with
    | rest, true => [] :: rest
    | [], false => [[c]]
    | r :: rs, false => (c :: r) :: rs

/-- Modelled from the spec: `validations.IsValidARN` (the
`internal/validations` package is missing from the sources).  An ARN is
syntactically valid when it has the AWS shape
`arn:partition:service:region:account:resource`, i.e. an `arn` first
section followed by at least five further colon-separated sections; the
spec's examples (`arn:aws:iam::123456789012:role/infra` valid,
`not-an-arn` invalid) behave accordingly. -/
def isValidARN (s : String) : Bool :=
  let parts := splitOnChar ':' s.toList
  (6 ≤ parts.length : Bool) && (parts.headD [] == "arn".toList)

/-- A character allowed by the `alphanumunderscore` tag on `Target.Name`. -/
def isAlphanumUnder (c : Char) : Bool :=
  c.isAlphanum || c == '_'

/-- Modelled from the spec: tag-driven validation of `Target`'s fields (the
tag interpreter lives in the missing `internal/validations` package; the
tags themselves are in `types.go`): `name` is required, alphanumeric
underscore and between 4 and 32 characters; `type` is required. -/
def validateStructTarget (t : Target) : Option String :=
  if t.name = "" then some "name is required"
  else if !t.name.toList.all isAlphanumUnder then
    some "name must be alphanumeric underscore"
  else if ¬ (4 ≤ t.name.length ∧ t.name.length ≤ 32) then
    some "name must be between 4 and 32 characters"
  else if t.type = "" then some "type is required"
  else none

/-- Modelled from the spec: tag-driven validation of `TargetProperties`
(tags in `types.go`): `role_arn` is required. -/
def validateStructProperties (p : TargetProperties) : Option String :=
  if p.roleArn = "" then some "role_arn is required" else none

/-- Modelled from the spec: `validations.Validate` runs the checks in order
and returns the first failure. -/
def firstErr : List (Option String) → Option String
  | [] => none
  | some e :: _ => some e
  | none :: rest => firstErr rest

/-- Validate validates TargetProperties (`types.go`): struct tags, then the
role ARN, the policy-ARN count bound and each policy ARN. -/
def TargetProperties.Validate (p : TargetProperties) : Option String :=
  firstErr
    [ validateStructProperties p,
      if !isValidARN p.roleArn then some "role_arn must be a valid arn"
      else if 5 < p.policyArns.length then some "policy_arns cannot be more than 5"
      else if !p.policyArns.all isValidARN then some "policy_arns contains an invalid arn"
      else none ]

/-- Validate validates Target (`types.go`): struct tags, then the type
enumeration, then the properties. -/
def Target.Validate (t : Target) : Option String :=
  firstErr
    [ validateStructTarget t,
      if t.type ≠ "aws_account" then some "type must be one of aws_account" else none,
      t.properties.Validate ]

/-! ## Shared db-layer entry types (`db` package) -/

/-- Errors surfaced by the embedded db layer.  `noMoreRows` is upper/db's
`db.ErrNoMoreRows` (the SQL client's not-found); `notFound` is the DynamoDB
client's "not found" error; `constraint` is a PostgreSQL key violation;
`validationException` is DynamoDB rejecting an oversized
`TransactWriteItems` call. -/
inductive DBError
  | noMoreRows
  | notFound
  | constraint
  | validationException
deriving DecidableEq, Repr

/-- ProjectEntry (`db` package): one row/item per project. -/
structure ProjectEntry where
  projectID : String
  repository : String
deriving DecidableEq, Repr

/-- TokenEntry (`db` package): persisted token metadata. -/
structure TokenEntry where
  createdAt : Nat
  expiresAt : Nat
  projectID : String
  tokenID : String
deriving DecidableEq, Repr

/-- TargetEntry (`db` package): persisted target row (SQL only). -/
structure TargetEntry where
  createdAt : Nat
  name : String
  project : String
  properties : TargetProperties
  type : String
  updatedAt : Nat
deriving DecidableEq, Repr

/-! ## SQL backend (`SQLClient`)

The PostgreSQL database is three tables of rows.  Constraints:
* `projects`: primary key `project`;
* `targets` (schema in the sources): primary key `(name, project)`,
  foreign key `project → projects` with `ON DELETE CASCADE`;
* `tokens`: its schema file is not in the sources.  Modelled from the spec:
  "A Token's `TokenID` is globally unique" (unique `token_id`) and
  "Deleting a Project must delete all Targets and Tokens owned by it"
  (delete of a project row cascades to its token rows). -/

structure SQLState where
  projects : List ProjectEntry
  targets : List TargetEntry
  tokens : List TokenEntry
deriving DecidableEq, Repr

/-- The empty database. -/
def SQLState.empty : SQLState := ⟨[], [], []⟩

/-- Deletion of all project rows with the given id, together with the
cascaded deletion of the project's target rows (schema `ON DELETE CASCADE`)
and token rows (spec-modelled cascade, see above). -/
def sqlDeleteProjectRows (project : String) (s : SQLState) : SQLState :=
  { projects := s.projects.filter fun e => !(e.projectID == project)
    targets := s.targets.filter fun t => !(t.project == project)
    tokens := s.tokens.filter fun t => !(t.projectID == project) }

/-- CreateProjectEntry (SQL): inside one transaction, delete any row with
the same project id, then insert the new row. -/
def SQLClient.CreateProjectEntry (pe : ProjectEntry) (s : SQLState) :
    Except DBError SQLState :=
  let s' := sqlDeleteProjectRows pe.projectID s
  .ok { s' with projects := s'.projects ++ [pe] }

/-- ReadProjectEntry (SQL): `Find("project", project).One` — the first
matching row, or `db.ErrNoMoreRows`. -/
def SQLClient.ReadProjectEntry (project : String) (s : SQLState) :
    Except DBError ProjectEntry :=
  match s.projects.find? (fun e => e.projectID == project) with
  | some e => .ok e
  | none => .error .noMoreRows

/-- DeleteProjectEntry (SQL): `Find("project", project).Delete()`.  Deleting
zero rows is not an error; the schema cascades to targets (and, spec-modelled,
tokens). -/
def SQLClient.DeleteProjectEntry (project : String) (s : SQLState) :
    Except DBError SQLState :=
  .ok (sqlDeleteProjectRows project s)

/-- CreateTokenEntry (SQL): transactional insert of the token's entry row.
The spec-modelled unique `token_id` key rejects a duplicate. -/
def SQLClient.CreateTokenEntry (token : Token) (s : SQLState) :
    Except DBError SQLState :=
  let te : TokenEntry :=
    { createdAt := token.createdAt, expiresAt := token.expiresAt,
      projectID := token.projectID, tokenID := token.projectToken.id }
  if s.tokens.any (fun t => t.tokenID == token.projectToken.id) then
    .error .constraint
  else
    .ok { s with tokens := s.tokens ++ [te] }

/-- DeleteTokenEntry (SQL): `Find("token_id", token).Delete()`; the project
argument is unused and deleting zero rows is not an error. -/
def SQLClient.DeleteTokenEntry (project token : String) (s : SQLState) :
    Except DBError SQLState :=
  .ok { s with tokens := s.tokens.filter fun t => !(t.tokenID == token) }

/-- ReadTokenEntry (SQL): looks up by `token_id` only; the source comment
notes the project parameter is ignored since `token_id` is unique. -/
def SQLClient.ReadTokenEntry (project token : String) (s : SQLState) :
    Except DBError TokenEntry :=
  match s.tokens.find? (fun t => t.tokenID == token) with
  | some t => .ok t
  | none => .error .noMoreRows

/-- Token entries ordered by `created_at` descending, as produced by
`OrderBy("-created_at")`. -/
def byCreatedDesc (a b : TokenEntry) : Prop := b.createdAt ≤ a.createdAt

instance : DecidableRel byCreatedDesc := fun a b =>
  inferInstanceAs (Decidable (b.createdAt ≤ a.createdAt))

instance : IsTotal TokenEntry byCreatedDesc :=
  ⟨fun a b => Nat.le_total b.createdAt a.createdAt⟩

instance : IsTrans TokenEntry byCreatedDesc :=
  ⟨fun _ _ _ h₁ h₂ => Nat.le_trans h₂ h₁⟩

/-- ListTokenEntries (SQL): `Find("project", project).OrderBy("-created_at")`
— the project's rows, most recently created first. -/
def SQLClient.ListTokenEntries (project : String) (s : SQLState) :
    List TokenEntry :=
  List.insertionSort byCreatedDesc
    (s.tokens.filter fun t => t.projectID == project)

/-- CreateTargetEntry (SQL): transactional insert with
`created_at = updated_at = now`; the schema's primary key `(name, project)`
and foreign key to `projects` reject a duplicate key or a missing parent
project. -/
def SQLClient.CreateTargetEntry (now : Nat) (project : String)
    (target : Target) (s : SQLState) : Except DBError SQLState :=
  let te : TargetEntry :=
    { createdAt := now, name := target.name, project := project,
      properties := target.properties, type := target.type, updatedAt := now }
  if s.targets.any (fun t => t.name == target.name && t.project == project) then
    .error .constraint
  else if !(s.projects.any fun e => e.projectID == project) then
    .error .constraint
  else
    .ok { s with targets := s.targets ++ [te] }

/-- ReadTargetEntry (SQL): first row matching `(project, name)`, or
`db.ErrNoMoreRows`. -/
def SQLClient.ReadTargetEntry (project targetName : String) (s : SQLState) :
    Except DBError TargetEntry :=
  match s.targets.find? (fun t => t.project == project && t.name == targetName) with
  | some t => .ok t
  | none => .error .noMoreRows

/-- CreateIfMissingTargetEntry (SQL): read by composite key; on
`ErrNoMoreRows` create, on success do nothing, otherwise propagate. -/
def SQLClient.CreateIfMissingTargetEntry (now : Nat) (project : String)
    (target : Target) (s : SQLState) : Except DBError SQLState :=
  match SQLClient.ReadTargetEntry project target.name s with
  | .ok _ => .ok s
  | .error e =>
    if e = .noMoreRows then SQLClient.CreateTargetEntry now project target s
    else .error e

/-- UpdateTargetEntry (SQL): update `properties` and `updated_at` of every
row matching `(project, name)`. -/
def SQLClient.UpdateTargetEntry (now : Nat) (project : String)
    (target : Target) (s : SQLState) : Except DBError SQLState :=
  .ok { s with
    targets := s.targets.map fun t =>
      if t.project == project && t.name == target.name then
        { t with properties := target.properties, updatedAt := now }
      else t }

/-- UpsertTargetEntry (SQL): read by composite key; on `ErrNoMoreRows`
create, on success update, otherwise propagate. -/
def SQLClient.UpsertTargetEntry (now : Nat) (project : String)
    (target : Target) (s : SQLState) : Except DBError SQLState :=
  match SQLClient.ReadTargetEntry project target.name s with
  | .ok _ => SQLClient.UpdateTargetEntry now project target s
  | .error e =>
    if e = .noMoreRows then SQLClient.CreateTargetEntry now project target s
    else .error e

/-- DeleteTargetEntry (SQL): delete rows matching `(project, name)`;
deleting zero rows is not an error. -/
def SQLClient.DeleteTargetEntry (project targetName : String) (s : SQLState) :
    Except DBError SQLState :=
  .ok { s with
    targets := s.targets.filter fun t =>
      !(t.project == project && t.name == targetName) }

/-- ListTargetEntries (SQL): all rows of the project, unordered. -/
def SQLClient.ListTargetEntries (project : String) (s : SQLState) :
    List TargetEntry :=
  s.targets.filter fun t => t.project == project

/-! ## DynamoDB backend (`DDBClient`)

A single table of items; an item is an attribute map.  The composite
primary key is the string pair of the `pk` and `sk` attributes.  Semantics
of the DynamoDB primitives used by the client (environment model):
`PutItem` replaces the item with the same key, `GetItem` is a key lookup,
`Query` returns the items of one partition in ascending sort-key order,
`DeleteItem` is unconditional, and `TransactWriteItems` applies all of its
writes atomically but rejects a request of more than
`ddbMaxTransactItems` items outright. -/

/-- A DynamoDB attribute value (only strings and numbers occur here). -/
inductive Attr
  | s (v : String)
  | n (v : Nat)
deriving DecidableEq, Repr

/-- A DynamoDB item: an attribute map. -/
abbrev Item := List (String × Attr)

/-- String attribute lookup (zero value `""` when absent or non-string). -/
def Item.getS (it : Item) (k : String) : String :=
  match it.lookup k with
  | some (.s v) => v
  | _ => ""

/-- Numeric attribute lookup (zero value `0` when absent or non-numeric). -/
def Item.getN (it : Item) (k : String) : Nat :=
  match it.lookup k with
  | some (.n v) => v
  | _ => 0

/-- The item's partition key attribute. -/
def Item.pk (it : Item) : String := it.getS "pk"

/-- The item's sort key attribute. -/
def Item.sk (it : Item) : String := it.getS "sk"

/-- Set attribute `k` to `v` (Go `item[k] = v`). -/
def Item.set (it : Item) (k : String) (v : Attr) : Item :=
  (it.filter fun kv => !(kv.1 == k)) ++ [(k, v)]

/-- The DynamoDB table. -/
structure DDBTable where
  items : List Item
deriving DecidableEq, Repr

/-- The empty table. -/
def DDBTable.empty : DDBTable := ⟨[]⟩

/-- PutItem: replace the item with the same `(pk, sk)` key, if any. -/
def DDBTable.put (tbl : DDBTable) (it : Item) : DDBTable :=
  ⟨(tbl.items.filter fun j => !(j.pk == it.pk && j.sk == it.sk)) ++ [it]⟩

/-- GetItem: direct key lookup. -/
def DDBTable.get (tbl : DDBTable) (pk sk : String) : Option Item :=
  tbl.items.find? fun j => j.pk == pk && j.sk == sk

/-- Ascending sort-key order on items, the order in which DynamoDB returns
the items of one partition (lexicographic on the sort key's characters). -/
def skLe (a b : Item) : Prop := a.sk.data ≤ b.sk.data

instance : DecidableRel skLe := fun a b =>
  inferInstanceAs (Decidable (a.sk.data ≤ b.sk.data))

instance : IsTotal Item skLe := ⟨fun a b => le_total a.sk.data b.sk.data⟩

instance : IsTrans Item skLe := ⟨fun _ _ _ h₁ h₂ => le_trans h₁ h₂⟩

/-- Query with `pk = :project`: the partition's items, ascending by sort
key. -/
def DDBTable.queryPk (tbl : DDBTable) (pk : String) : List Item :=
  List.insertionSort skLe (tbl.items.filter fun j => j.pk == pk)

/-- The DynamoDB `TransactWriteItems` item-count limit. -/
def ddbMaxTransactItems : Nat := 100

/-- MarshalMap of a `ProjectEntry` under its `dynamodbav` tags:
`ProjectID` maps to `pk`, `Repository` to `repository`. -/
def marshalProjectEntry (pe : ProjectEntry) : Item :=
  [("pk", .s pe.projectID), ("repository", .s pe.repository)]

/-- UnmarshalMap into a `ProjectEntry`: `pk` and `repository` attributes. -/
def unmarshalProjectEntry (it : Item) : ProjectEntry :=
  { projectID := it.getS "pk", repository := it.getS "repository" }

/-- MarshalMap of a `TokenEntry` under its `dynamodbav` tags: `ProjectID`
is tagged `dynamodbav:"-"` and not marshalled (the source comment: it is
in the pk). -/
def marshalTokenEntry (te : TokenEntry) : Item :=
  [("created_at", .n te.createdAt), ("expires_at", .n te.expiresAt),
   ("token_id", .s te.tokenID)]

/-- UnmarshalMap into a `TokenEntry`: `ProjectID` is tagged
`dynamodbav:"-"`, so it keeps its zero value `""`. -/
def unmarshalTokenEntry (it : Item) : TokenEntry :=
  { createdAt := it.getN "created_at", expiresAt := it.getN "expires_at",
    projectID := "", tokenID := it.getS "token_id" }

/-- CreateProjectEntry (DDB): marshal, overwrite `pk` with
`PROJECT#<id>`, set `sk` to `META`, `PutItem`. -/
def DDBClient.CreateProjectEntry (pe : ProjectEntry) (tbl : DDBTable) :
    DDBTable :=
  let item := ((marshalProjectEntry pe).set "pk"
      (.s ("PROJECT#" ++ pe.projectID))).set "sk" (.s "META")
  tbl.put item

/-- ReadProjectEntry (DDB): `GetItem` at `(PROJECT#<id>, META)`; a missing
item is the "project not found" error. -/
def DDBClient.ReadProjectEntry (project : String) (tbl : DDBTable) :
    Except DBError ProjectEntry :=
  match tbl.get ("PROJECT#" ++ project) "META" with
  | some it => .ok (unmarshalProjectEntry it)
  | none => .error .notFound

/-- DeleteProjectEntry (DDB): query every item of the project's partition;
nothing to do when there are none; otherwise delete them all in one
`TransactWriteItems` call (which fails outright beyond
`ddbMaxTransactItems` items). -/
def DDBClient.DeleteProjectEntry (project : String) (tbl : DDBTable) :
    Except DBError DDBTable :=
  if (tbl.queryPk ("PROJECT#" ++ project)).length = 0 then .ok tbl
  else if ddbMaxTransactItems < (tbl.queryPk ("PROJECT#" ++ project)).length then
    .error .validationException
  else
    .ok ⟨tbl.items.filter fun j =>
      !((tbl.queryPk ("PROJECT#" ++ project)).any fun q =>
          q.pk == j.pk && q.sk == j.sk)⟩

/-- CreateTokenEntry (DDB): build the entry from the token, marshal, set
`pk` to `PROJECT#<project>` and `sk` to `TOKEN#<token id>`, `PutItem`. -/
def DDBClient.CreateTokenEntry (token : Token) (tbl : DDBTable) : DDBTable :=
  let te : TokenEntry :=
    { createdAt := token.createdAt, expiresAt := token.expiresAt,
      projectID := token.projectID, tokenID := token.projectToken.id }
  let item := ((marshalTokenEntry te).set "pk"
      (.s ("PROJECT#" ++ token.projectID))).set "sk"
      (.s ("TOKEN#" ++ token.projectToken.id))
  tbl.put item

/-- ReadTokenEntry (DDB): `GetItem` at `(PROJECT#<project>, TOKEN#<token>)`;
a missing item is the "token not found" error. -/
def DDBClient.ReadTokenEntry (project token : String) (tbl : DDBTable) :
    Except DBError TokenEntry :=
  match tbl.get ("PROJECT#" ++ project) ("TOKEN#" ++ token) with
  | some it => .ok (unmarshalTokenEntry it)
  | none => .error .notFound

/-- DeleteTokenEntry (DDB): unconditional `DeleteItem` at the token's key;
never a not-found error. -/
def DDBClient.DeleteTokenEntry (project token : String) (tbl : DDBTable) :
    Except DBError DDBTable :=
  .ok ⟨tbl.items.filter fun j =>
    !(j.pk == "PROJECT#" ++ project && j.sk == "TOKEN#" ++ token)⟩

/-- ListTokenEntries (DDB): query `pk = PROJECT#<project>` with
`begins_with(sk, TOKEN#)` and unmarshal each item, in the query's
ascending sort-key order. -/
def DDBClient.ListTokenEntries (project : String) (tbl : DDBTable) :
    List TokenEntry :=
  (((tbl.queryPk ("PROJECT#" ++ project)).filter fun it =>
      "TOKEN#".data.isPrefixOf it.sk.data).map unmarshalTokenEntry)

/-! ## Concrete fixtures used by witnesses and counterexamples -/

def tokP1 : Token := ⟨1, 2, "p1", ⟨"t1"⟩, "", ""⟩

def sqlOneToken : SQLState := ⟨[⟨"p1", "repo"⟩], [], [⟨1, 2, "p1", "t1"⟩]⟩

def ddbOneToken : DDBTable := DDBClient.CreateTokenEntry tokP1 DDBTable.empty

/-- A table whose partition `PROJECT#big` holds 101 items, one more than
the transaction limit. -/
def bigTbl : DDBTable :=
  ⟨(List.range 101).map fun i =>
    [("pk", Attr.s "PROJECT#big"), ("sk", Attr.s (Nat.repr i))]⟩

/-- A token-entry list ordered by creation time, most recent first. -/
def mostRecentFirst (l : List TokenEntry) : Prop :=
  List.Sorted byCreatedDesc l

def tokA : Token := ⟨1, 10, "p1", ⟨"a"⟩, "", ""⟩

def tokB : Token := ⟨2, 20, "p1", ⟨"b"⟩, "", ""⟩

def ddbTwoTokens : DDBTable :=
  DDBClient.CreateTokenEntry tokB (DDBClient.CreateTokenEntry tokA DDBTable.empty)

def tgtProps : TargetProperties := ⟨[], "", "arn:aws:iam::123456789012:role/infra"⟩

def tgtProps2 : TargetProperties := ⟨[], "", "arn:aws:iam::123456789012:role/other"⟩

def tgt2 : Target := ⟨"infra_role", tgtProps2, "aws_account"⟩

def sqlOneTarget : SQLState :=
  ⟨[⟨"p1", "repo"⟩], [⟨0, "infra_role", "p1", tgtProps, "aws_account", 0⟩], []⟩

def tgt1 : Target := ⟨"infra_role", tgtProps, "aws_account"⟩

/-! ## Helper lemmas -/

theorem firstErr_two (a b : Option String) :
    firstErr [a, b] = none ↔ a = none ∧ b = none := by
  cases a <;> cases b <;> simp [firstErr]

theorem firstErr_three (a b c : Option String) :
    firstErr [a, b, c] = none ↔ a = none ∧ b = none ∧ c = none := by
  cases a <;> cases b <;> cases c <;> simp [firstErr]

theorem validateStructTarget_eq_none (t : Target) :
    validateStructTarget t = none ↔
      (t.name.toList.all isAlphanumUnder = true ∧
        4 ≤ t.name.length ∧ t.name.length ≤ 32 ∧ t.type ≠ "") := by
  have hlen : t.name = "" → t.name.length = 0 := fun h => by simp [h]
  unfold validateStructTarget
  split_ifs with h1 h2 h3 h4 <;> simp_all

theorem validateStructProperties_eq_none (p : TargetProperties) :
    validateStructProperties p = none ↔ p.roleArn ≠ "" := by
  unfold validateStructProperties
  split_ifs with h <;> simp_all

theorem isValidARN_empty : isValidARN "" = false := by decide

theorem targetProperties_validate_eq_none (p : TargetProperties) :
    p.Validate = none ↔
      (isValidARN p.roleArn = true ∧ p.policyArns.length ≤ 5 ∧
        ∀ a ∈ p.policyArns, isValidARN a = true) := by
  have hne : isValidARN p.roleArn = true → p.roleArn ≠ "" := by
    intro h he
    rw [he, isValidARN_empty] at h
    exact Bool.false_ne_true h
  unfold TargetProperties.Validate
  rw [firstErr_two, validateStructProperties_eq_none]
  split_ifs with h1 h2 h3 <;> simp_all

theorem find?_filter_not {α} (l : List α) (p : α → Bool) :
    (l.filter fun a => !(p a)).find? p = none := by
  rw [List.find?_eq_none]
  intro x hx
  rcases List.mem_filter.mp hx with ⟨-, h⟩
  simp_all

theorem DDBTable.get_put (tbl : DDBTable) (it : Item) :
    (tbl.put it).get it.pk it.sk = some it := by
  unfold DDBTable.put DDBTable.get
  rw [List.find?_append, find?_filter_not]
  simp

theorem projectItem_pk (pe : ProjectEntry) :
    (((marshalProjectEntry pe).set "pk"
        (Attr.s ("PROJECT#" ++ pe.projectID))).set "sk" (Attr.s "META")).pk
      = "PROJECT#" ++ pe.projectID := by
  simp [marshalProjectEntry, Item.set, Item.pk, Item.getS, List.lookup]

theorem projectItem_sk (pe : ProjectEntry) :
    (((marshalProjectEntry pe).set "pk"
        (Attr.s ("PROJECT#" ++ pe.projectID))).set "sk" (Attr.s "META")).sk
      = "META" := by
  simp [marshalProjectEntry, Item.set, Item.sk, Item.getS, List.lookup]

theorem ddb_read_after_createProject (pe : ProjectEntry) (tbl : DDBTable) :
    DDBClient.ReadProjectEntry pe.projectID (DDBClient.CreateProjectEntry pe tbl) =
      .ok ⟨"PROJECT#" ++ pe.projectID, pe.repository⟩ := by
  unfold DDBClient.CreateProjectEntry DDBClient.ReadProjectEntry
  have hget := DDBTable.get_put tbl
    (((marshalProjectEntry pe).set "pk"
        (Attr.s ("PROJECT#" ++ pe.projectID))).set "sk" (Attr.s "META"))
  rw [projectItem_pk, projectItem_sk] at hget
  rw [hget]
  simp [marshalProjectEntry, Item.set, unmarshalProjectEntry, Item.getS,
    List.lookup]

theorem sql_read_after_createProject (pe : ProjectEntry) (s : SQLState) :
    ∃ s', SQLClient.CreateProjectEntry pe s = .ok s' ∧
      SQLClient.ReadProjectEntry pe.projectID s' = .ok pe := by
  refine ⟨_, rfl, ?_⟩
  unfold SQLClient.ReadProjectEntry sqlDeleteProjectRows
  rw [List.find?_append, find?_filter_not]
  simp

/-- Claim C7: `Target.Validate` accepts a target exactly when its name is
4–32 characters consisting only of alphanumerics and underscores, its type
is `aws_account`, its role ARN is syntactically valid, and it has at most
five policy ARNs, each syntactically valid. -/
theorem C7_target_validate_iff (t : Target) :
    t.Validate = none ↔
      (4 ≤ t.name.length ∧ t.name.length ≤ 32 ∧
        (∀ c ∈ t.name.toList, isAlphanumUnder c = true) ∧
        t.type = "aws_account" ∧
        isValidARN t.properties.roleArn = true ∧
        t.properties.policyArns.length ≤ 5 ∧
        ∀ a ∈ t.properties.policyArns, isValidARN a = true) := by
  have htype : t.type = "aws_account" → t.type ≠ "" := by
    intro h
    rw [h]
    decide
  unfold Target.Validate
  rw [firstErr_three, validateStructTarget_eq_none,
    targetProperties_validate_eq_none, List.all_eq_true]
  constructor
  · rintro ⟨⟨hchars, hlo, hhi, -⟩, htp, hp⟩
    refine ⟨hlo, hhi, hchars, ?_, hp⟩
    by_contra hne
    simp [hne] at htp
  · rintro ⟨hlo, hhi, hchars, htp, hp⟩
    exact ⟨⟨hchars, hlo, hhi, htype htp⟩, by simp [htp], hp⟩

/-- Claim C2: `CreateProjectEntry` succeeds even when an entry with the
same `ProjectID` already exists (duplicate identity is not an error),
replacing the stored entry; a subsequent `ReadProjectEntry` of that id
returns an entry whose `Repository` equals the created entry's, in both
backends. -/
theorem C2_createProject_then_read (pe : ProjectEntry) (s : SQLState)
    (tbl : DDBTable) :
    (∃ s', SQLClient.CreateProjectEntry pe s = .ok s' ∧
        (SQLClient.ReadProjectEntry pe.projectID s').map ProjectEntry.repository
          = .ok pe.repository) ∧
    (DDBClient.ReadProjectEntry pe.projectID
        (DDBClient.CreateProjectEntry pe tbl)).map ProjectEntry.repository
      = .ok pe.repository := by
  constructor
  · obtain ⟨s', h1, h2⟩ := sql_read_after_createProject pe s
    exact ⟨s', h1, by rw [h2]; rfl⟩
  · rw [ddb_read_after_createProject]
    rfl

theorem tokenItem_pk (tok : Token) :
    (((marshalTokenEntry
          ⟨tok.createdAt, tok.expiresAt, tok.projectID, tok.projectToken.id⟩).set
        "pk" (Attr.s ("PROJECT#" ++ tok.projectID))).set
        "sk" (Attr.s ("TOKEN#" ++ tok.projectToken.id))).pk
      = "PROJECT#" ++ tok.projectID := by
  simp [marshalTokenEntry, Item.set, Item.pk, Item.getS, List.lookup]

theorem tokenItem_sk (tok : Token) :
    (((marshalTokenEntry
          ⟨tok.createdAt, tok.expiresAt, tok.projectID, tok.projectToken.id⟩).set
        "pk" (Attr.s ("PROJECT#" ++ tok.projectID))).set
        "sk" (Attr.s ("TOKEN#" ++ tok.projectToken.id))).sk
      = "TOKEN#" ++ tok.projectToken.id := by
  simp [marshalTokenEntry, Item.set, Item.sk, Item.getS, List.lookup]

theorem ddb_read_after_createToken (tok : Token) (tbl : DDBTable) :
    DDBClient.ReadTokenEntry tok.projectID tok.projectToken.id
        (DDBClient.CreateTokenEntry tok tbl) =
      .ok ⟨tok.createdAt, tok.expiresAt, "", tok.projectToken.id⟩ := by
  unfold DDBClient.CreateTokenEntry DDBClient.ReadTokenEntry
  have hget := DDBTable.get_put tbl
    (((marshalTokenEntry
          ⟨tok.createdAt, tok.expiresAt, tok.projectID, tok.projectToken.id⟩).set
        "pk" (Attr.s ("PROJECT#" ++ tok.projectID))).set
        "sk" (Attr.s ("TOKEN#" ++ tok.projectToken.id)))
  rw [tokenItem_pk, tokenItem_sk] at hget
  rw [hget]
  simp [marshalTokenEntry, Item.set, unmarshalTokenEntry, Item.getS,
    Item.getN, List.lookup]

theorem sql_read_after_createToken (tok : Token) (s : SQLState)
    (h : ∀ te ∈ s.tokens, te.tokenID ≠ tok.projectToken.id) :
    ∃ s', SQLClient.CreateTokenEntry tok s = .ok s' ∧
      SQLClient.ReadTokenEntry tok.projectID tok.projectToken.id s' =
        .ok ⟨tok.createdAt, tok.expiresAt, tok.projectID, tok.projectToken.id⟩ := by
  have hany : (s.tokens.any fun t => t.tokenID == tok.projectToken.id) = false := by
    rw [← Bool.not_eq_true, List.any_eq_true]
    rintro ⟨x, hx, hid⟩
    exact h x hx (by simpa using hid)
  refine ⟨_, by rw [SQLClient.CreateTokenEntry, hany]; rfl, ?_⟩
  unfold SQLClient.ReadTokenEntry
  rw [List.find?_append]
  have hnone : (s.tokens.find? fun t => t.tokenID == tok.projectToken.id) = none := by
    rw [List.find?_eq_none]
    intro x hx
    simpa using h x hx
  rw [hnone]
  simp

/-- Counterexample to claim C10: the key-value backend's round trip is not
lossless — creating the token `t1` of project `p1` and reading it back
yields an entry whose `ProjectID` is empty, not `p1` (the owning project
lives only in the partition key and is never parsed back). -/
theorem C10_counterexample :
    DDBClient.ReadTokenEntry "p1" "t1"
        (DDBClient.CreateTokenEntry tokP1 DDBTable.empty)
      = .ok ⟨1, 2, "", "t1"⟩ ∧ tokP1.projectID ≠ "" := by
  exact ⟨rfl, by decide⟩

/-- Claim C10 (amended): `CreateTokenEntry` followed by `ReadTokenEntry`
round-trips `CreatedAt`, `ExpiresAt` and `TokenID` in both backends, and
`ProjectID` in the relational backend; the key-value backend returns the
entry with an empty `ProjectID` (the owning project is encoded only in the
partition key and not restored by the codec). -/
theorem C10_token_roundtrip (tok : Token) (s : SQLState) (tbl : DDBTable)
    (h : ∀ te ∈ s.tokens, te.tokenID ≠ tok.projectToken.id) :
    (∃ s', SQLClient.CreateTokenEntry tok s = .ok s' ∧
        SQLClient.ReadTokenEntry tok.projectID tok.projectToken.id s' =
          .ok ⟨tok.createdAt, tok.expiresAt, tok.projectID, tok.projectToken.id⟩) ∧
    DDBClient.ReadTokenEntry tok.projectID tok.projectToken.id
        (DDBClient.CreateTokenEntry tok tbl) =
      .ok ⟨tok.createdAt, tok.expiresAt, "", tok.projectToken.id⟩ :=
  ⟨sql_read_after_createToken tok s h, ddb_read_after_createToken tok tbl⟩

/-- Witness for claim C10's amended theorem at the concrete token `t1`
of project `p1` on empty stores. -/
theorem C10_token_roundtrip_witness :
    (∃ s', SQLClient.CreateTokenEntry tokP1 SQLState.empty = .ok s' ∧
        SQLClient.ReadTokenEntry "p1" "t1" s' = .ok ⟨1, 2, "p1", "t1"⟩) ∧
    DDBClient.ReadTokenEntry "p1" "t1"
        (DDBClient.CreateTokenEntry tokP1 DDBTable.empty)
      = .ok ⟨1, 2, "", "t1"⟩ :=
  C10_token_roundtrip tokP1 SQLState.empty DDBTable.empty
    (by intro te h; cases h)

theorem string_append_left_cancel {p a b : String} (h : p ++ a = p ++ b) :
    a = b := by
  have hd : p.data ++ a.data = p.data ++ b.data := by
    rw [← String.data_append, ← String.data_append, h]
  have hab : a.data = b.data := List.append_cancel_left hd
  cases a
  cases b
  exact congrArg String.mk hab

theorem find?_filter_comm {α} (l : List α) (p q : α → Bool)
    (h : ∀ a, p a = true → q a = true) :
    (l.filter q).find? p = l.find? p := by
  induction l with
  | nil => rfl
  | cons a as ih =>
    by_cases hq : q a = true
    · by_cases hp : p a = true
      · simp [List.filter, hq, List.find?, hp]
      · simp only [Bool.not_eq_true] at hp
        simp [List.filter, hq, List.find?, hp, ih]
    · have hp : p a = false := by
        by_contra hc
        simp only [Bool.not_eq_false] at hc
        exact hq (h a hc)
      simp only [Bool.not_eq_true] at hq
      simp [List.filter, hq, List.find?, hp, ih]

theorem DDBTable.get_put_ne (tbl : DDBTable) (it : Item) (pk sk : String)
    (h : ¬(pk = it.pk ∧ sk = it.sk)) :
    (tbl.put it).get pk sk = tbl.get pk sk := by
  unfold DDBTable.put DDBTable.get
  rw [List.find?_append]
  have himpl : ∀ a : Item, (a.pk == pk && a.sk == sk) = true →
      (!(a.pk == it.pk && a.sk == it.sk)) = true := by
    intro a ha
    simp only [Bool.and_eq_true, beq_iff_eq] at ha
    simp only [Bool.not_eq_true', Bool.and_eq_false_iff, beq_eq_false_iff_ne]
    by_contra hc
    push_neg at hc
    exact h ⟨ha.1.symm.trans hc.1, ha.2.symm.trans hc.2⟩
  rw [find?_filter_comm _ _ _ himpl]
  have hit : (it.pk == pk && it.sk == sk) = false := by
    cases hb : (it.pk == pk && it.sk == sk) with
    | false => rfl
    | true =>
      simp only [Bool.and_eq_true, beq_iff_eq] at hb
      exact absurd ⟨hb.1.symm, hb.2.symm⟩ h
  simp [List.find?, hit]

/-- Counterexample to claim C4: with identical logical contents (the single
token `t1` created at 1, expiring at 2, owned by project `p1`),
`ReadToken("p2","t1")` returns the token in the relational backend (the
project argument is ignored) but NotFound in the key-value backend; and
even with the owning project passed, the two backends' entries differ in
`ProjectID`. -/
theorem C4_counterexample :
    SQLClient.ReadTokenEntry "p2" "t1" sqlOneToken = .ok ⟨1, 2, "p1", "t1"⟩ ∧
    DDBClient.ReadTokenEntry "p2" "t1" ddbOneToken = .error .notFound ∧
    SQLClient.ReadTokenEntry "p1" "t1" sqlOneToken = .ok ⟨1, 2, "p1", "t1"⟩ ∧
    DDBClient.ReadTokenEntry "p1" "t1" ddbOneToken = .ok ⟨1, 2, "", "t1"⟩ := by
  exact ⟨rfl, rfl, rfl, rfl⟩

/-- Claim C4 (amended): the backends' `ReadTokenEntry` semantics diverge.
The relational backend ignores the project argument entirely (any two
project arguments give the same outcome).  The key-value backend keys on
the project: after creating a token, reading its id under any project other
than the owning one yields NotFound (provided that partition holds no item
at that key), while reading under the owning project succeeds — and even
then the returned entry's `ProjectID` is empty rather than the owning
project, so the outcomes agree only up to that field. -/
theorem C4_readToken_divergence (p₁ p₂ token : String) (s : SQLState)
    (tok : Token) (tbl : DDBTable)
    (hp : p₂ ≠ tok.projectID)
    (hfree : tbl.get ("PROJECT#" ++ p₂) ("TOKEN#" ++ tok.projectToken.id) = none) :
    SQLClient.ReadTokenEntry p₁ token s = SQLClient.ReadTokenEntry p₂ token s ∧
    DDBClient.ReadTokenEntry p₂ tok.projectToken.id
        (DDBClient.CreateTokenEntry tok tbl) = .error .notFound ∧
    DDBClient.ReadTokenEntry tok.projectID tok.projectToken.id
        (DDBClient.CreateTokenEntry tok tbl) =
      .ok ⟨tok.createdAt, tok.expiresAt, "", tok.projectToken.id⟩ := by
  refine ⟨rfl, ?_, ddb_read_after_createToken tok tbl⟩
  unfold DDBClient.CreateTokenEntry DDBClient.ReadTokenEntry
  rw [DDBTable.get_put_ne]
  · rw [hfree]
  · rw [tokenItem_pk, tokenItem_sk]
    rintro ⟨hpk, -⟩
    exact hp (string_append_left_cancel hpk)

/-- Witness for claim C4's amended theorem: token `t1` of project `p1`
created in an empty table, read back under `p2` and under `p1`. -/
theorem C4_readToken_divergence_witness :
    SQLClient.ReadTokenEntry "pa" "t1" sqlOneToken =
        SQLClient.ReadTokenEntry "p2" "t1" sqlOneToken ∧
    DDBClient.ReadTokenEntry "p2" "t1"
        (DDBClient.CreateTokenEntry tokP1 DDBTable.empty) = .error .notFound ∧
    DDBClient.ReadTokenEntry "p1" "t1"
        (DDBClient.CreateTokenEntry tokP1 DDBTable.empty) =
      .ok ⟨1, 2, "", "t1"⟩ :=
  C4_readToken_divergence "pa" "p2" "t1" sqlOneToken tokP1 DDBTable.empty
    (by decide) rfl

theorem ddb_delete_ok_items (project : String) (tbl tbl' : DDBTable)
    (h : DDBClient.DeleteProjectEntry project tbl = .ok tbl') :
    tbl'.items = tbl.items.filter fun j => !(j.pk == "PROJECT#" ++ project) := by
  unfold DDBClient.DeleteProjectEntry at h
  split_ifs at h with h0 hmax
  · cases h
    have hnil : (tbl.items.filter fun j => j.pk == "PROJECT#" ++ project) = [] := by
      have := (List.perm_insertionSort skLe
        (tbl.items.filter fun j => j.pk == "PROJECT#" ++ project)).length_eq
      rw [List.length_eq_zero] at h0
      unfold DDBTable.queryPk at h0
      rw [h0] at this
      exact (List.length_eq_zero.mp this.symm)
    have hall : ∀ j ∈ tbl.items, (j.pk == "PROJECT#" ++ project) = false := by
      intro j hj
      cases hb : (j.pk == "PROJECT#" ++ project) with
      | false => rfl
      | true =>
        have : j ∈ (tbl.items.filter fun j => j.pk == "PROJECT#" ++ project) :=
          List.mem_filter.mpr ⟨hj, hb⟩
        rw [hnil] at this
        cases this
    symm
    rw [List.filter_eq_self]
    intro j hj
    simp [hall j hj]
  · cases h
    show List.filter _ tbl.items = List.filter _ tbl.items
    refine List.filter_congr fun j hj => ?_
    congr 1
    have hmem : ∀ q : Item, q ∈ tbl.queryPk ("PROJECT#" ++ project) ↔
        q ∈ tbl.items ∧ (q.pk == "PROJECT#" ++ project) = true := by
      intro q
      unfold DDBTable.queryPk
      rw [(List.perm_insertionSort skLe _).mem_iff, List.mem_filter]
    cases hb : (j.pk == "PROJECT#" ++ project) with
    | true =>
      rw [List.any_eq_true]
      exact ⟨j, (hmem j).mpr ⟨hj, hb⟩, by simp⟩
    | false =>
      rw [← Bool.not_eq_true, List.any_eq_true]
      rintro ⟨q, hq, hqj⟩
      have hqpk := ((hmem q).mp hq).2
      simp only [Bool.and_eq_true, beq_iff_eq] at hqj hqpk
      rw [← hqj.1, hqpk] at hb
      simp at hb

/-- Claim C1: after `DeleteProjectEntry` completes successfully no child of
the project remains.  In the SQL backend the read is `ErrNoMoreRows` and
the target and token lists are empty; in the key-value backend no item of
the project's partition survives at all — in particular its read is
NotFound and its token list is empty. -/
theorem C1_deleteProject_no_orphans (project : String) (s : SQLState)
    (tbl tbl' : DDBTable)
    (h : DDBClient.DeleteProjectEntry project tbl = .ok tbl') :
    (∀ s', SQLClient.DeleteProjectEntry project s = .ok s' →
        SQLClient.ReadProjectEntry project s' = .error .noMoreRows ∧
        SQLClient.ListTargetEntries project s' = [] ∧
        SQLClient.ListTokenEntries project s' = []) ∧
    (∀ it ∈ tbl'.items, it.pk ≠ "PROJECT#" ++ project) ∧
    DDBClient.ReadProjectEntry project tbl' = .error .notFound ∧
    DDBClient.ListTokenEntries project tbl' = [] := by
  have hitems := ddb_delete_ok_items project tbl tbl' h
  have hno : ∀ it ∈ tbl'.items, (it.pk == "PROJECT#" ++ project) = false := by
    intro it hit
    rw [hitems] at hit
    rcases List.mem_filter.mp hit with ⟨-, hb⟩
    simpa using hb
  have hqnil : tbl'.items.filter (fun j => j.pk == "PROJECT#" ++ project) = [] := by
    rw [List.filter_eq_nil_iff]
    intro a ha
    simp [hno a ha]
  refine ⟨?_, ?_, ?_, ?_⟩
  · rintro s' ⟨⟩
    refine ⟨?_, ?_, ?_⟩
    · unfold SQLClient.ReadProjectEntry sqlDeleteProjectRows
      rw [find?_filter_not]
    · unfold SQLClient.ListTargetEntries sqlDeleteProjectRows
      rw [List.filter_eq_nil_iff]
      intro a ha
      rcases List.mem_filter.mp ha with ⟨-, hb⟩
      simp_all
    · unfold SQLClient.ListTokenEntries sqlDeleteProjectRows
      have : ((s.tokens.filter fun t => !(t.projectID == project)).filter
          fun t => t.projectID == project) = [] := by
        rw [List.filter_eq_nil_iff]
        intro a ha
        rcases List.mem_filter.mp ha with ⟨-, hb⟩
        simp_all
      rw [this]
      rfl
  · intro it hit hpk
    have := hno it hit
    rw [hpk] at this
    simp at this
  · unfold DDBClient.ReadProjectEntry DDBTable.get
    have : (tbl'.items.find? fun j =>
        j.pk == "PROJECT#" ++ project && j.sk == "META") = none := by
      rw [List.find?_eq_none]
      intro j hj
      simp [hno j hj]
    rw [this]
  · unfold DDBClient.ListTokenEntries DDBTable.queryPk
    rw [hqnil]
    rfl

/-- Witness for claim C1's theorem: deleting project `p1` from the
single-token stores empties them. -/
theorem C1_deleteProject_no_orphans_witness :
    (∀ s', SQLClient.DeleteProjectEntry "p1" sqlOneToken = .ok s' →
        SQLClient.ReadProjectEntry "p1" s' = .error .noMoreRows ∧
        SQLClient.ListTargetEntries "p1" s' = [] ∧
        SQLClient.ListTokenEntries "p1" s' = []) ∧
    (∀ it ∈ (DDBTable.mk []).items, it.pk ≠ "PROJECT#" ++ "p1") ∧
    DDBClient.ReadProjectEntry "p1" (DDBTable.mk []) = .error .notFound ∧
    DDBClient.ListTokenEntries "p1" (DDBTable.mk []) = [] :=
  C1_deleteProject_no_orphans "p1" sqlOneToken ddbOneToken ⟨[]⟩ rfl

/-- Claim C9: the key-value backend's `DeleteProjectEntry` is
all-or-nothing.  When the project's partition holds more items than the
`TransactWriteItems` limit, the call fails outright with a validation
error (and, the operation being a pure failure, removes nothing); whenever
it succeeds, the surviving items are exactly the items outside the
project's partition — it never removes only some of the project's
items. -/
theorem C9_ddb_deleteProject_transaction (project : String) (tbl : DDBTable) :
    (ddbMaxTransactItems < (tbl.queryPk ("PROJECT#" ++ project)).length →
        DDBClient.DeleteProjectEntry project tbl = .error .validationException) ∧
    ∀ tbl', DDBClient.DeleteProjectEntry project tbl = .ok tbl' →
        tbl'.items = tbl.items.filter fun j => !(j.pk == "PROJECT#" ++ project) := by
  constructor
  · intro hbig
    unfold DDBClient.DeleteProjectEntry
    rw [if_neg, if_pos hbig]
    intro h0
    rw [h0] at hbig
    exact absurd hbig (by decide)
  · exact fun tbl' h => ddb_delete_ok_items project tbl tbl' h

theorem bigTbl_partition_size :
    (bigTbl.queryPk ("PROJECT#" ++ "big")).length = 101 := by
  have hfilter :
      bigTbl.items.filter (fun j => j.pk == "PROJECT#" ++ "big") = bigTbl.items := by
    rw [List.filter_eq_self]
    intro a ha
    rcases List.mem_map.mp ha with ⟨i, -, rfl⟩
    simp [Item.pk, Item.getS, List.lookup]
  unfold DDBTable.queryPk
  rw [(List.perm_insertionSort skLe _).length_eq, hfilter]
  simp [bigTbl]

/-- Witness for claim C9's theorem: deleting `big` from the 101-item table
fails with the validation error; deleting `p1` from the one-token table
succeeds and leaves exactly the items outside that partition (none). -/
theorem C9_ddb_deleteProject_transaction_witness :
    DDBClient.DeleteProjectEntry "big" bigTbl = .error .validationException ∧
    (DDBTable.mk []).items =
      ddbOneToken.items.filter fun j => !(j.pk == "PROJECT#" ++ "p1") := by
  constructor
  · exact (C9_ddb_deleteProject_transaction "big" bigTbl).1
      (by rw [bigTbl_partition_size]; decide)
  · exact (C9_ddb_deleteProject_transaction "p1" ddbOneToken).2 ⟨[]⟩ rfl

/-- Counterexample to claim C3: in the key-value backend, with token `a`
created at time 1 and token `b` created at time 2 in project `p1`,
`ListTokenEntries` returns `a` before `b` — oldest first (ascending sort
key), not most recent first. -/
theorem C3_counterexample :
    DDBClient.ListTokenEntries "p1" ddbTwoTokens =
      [⟨1, 10, "", "a"⟩, ⟨2, 20, "", "b"⟩] ∧
    ¬ mostRecentFirst (DDBClient.ListTokenEntries "p1" ddbTwoTokens) := by
  have hval : DDBClient.ListTokenEntries "p1" ddbTwoTokens =
      [⟨1, 10, "", "a"⟩, ⟨2, 20, "", "b"⟩] := rfl
  refine ⟨hval, ?_⟩
  rw [mostRecentFirst, hval, List.sorted_cons]
  rintro ⟨hrel, -⟩
  have := hrel ⟨2, 20, "", "b"⟩ (by simp)
  rw [byCreatedDesc] at this
  exact absurd this (by decide)

/-- Claim C3 (amended): the relational backend lists a project's tokens
ordered by creation time, most recent first, for any stored contents; the
key-value backend instead returns the project's token items in ascending
sort-key order (the items it unmarshals are sorted by `sk`), which does
not order by creation time. -/
theorem C3_listTokens_order (project : String) (s : SQLState) (tbl : DDBTable) :
    mostRecentFirst (SQLClient.ListTokenEntries project s) ∧
    ∃ its : List Item, List.Sorted skLe its ∧
      (∀ it ∈ its, "TOKEN#".data.isPrefixOf it.sk.data = true) ∧
      DDBClient.ListTokenEntries project tbl = its.map unmarshalTokenEntry := by
  constructor
  · exact List.sorted_insertionSort byCreatedDesc _
  · refine ⟨(tbl.queryPk ("PROJECT#" ++ project)).filter fun it =>
        "TOKEN#".data.isPrefixOf it.sk.data, ?_, ?_, rfl⟩
    · exact List.Pairwise.filter _ (List.sorted_insertionSort skLe _)
    · intro it hit
      exact (List.mem_filter.mp hit).2

/-- Claim C5: on an existing target, `UpsertTargetEntry` updates only
`properties` and `updatedAt`, leaving `createdAt`, `name`, `project` and
`type` unchanged (rows with a different key are untouched, as are the
other tables); on an absent target it has exactly the same effect as
`CreateTargetEntry`. -/
theorem C5_upsert_frame (now : Nat) (project : String) (target : Target)
    (s : SQLState) :
    ((∃ te, SQLClient.ReadTargetEntry project target.name s = .ok te) →
      ∃ s', SQLClient.UpsertTargetEntry now project target s = .ok s' ∧
        s'.projects = s.projects ∧ s'.tokens = s.tokens ∧
        List.Forall₂ (fun t t' : TargetEntry =>
            t'.createdAt = t.createdAt ∧ t'.name = t.name ∧
            t'.project = t.project ∧ t'.type = t.type ∧
            (t.project = project ∧ t.name = target.name →
              t'.properties = target.properties ∧ t'.updatedAt = now) ∧
            (¬(t.project = project ∧ t.name = target.name) → t' = t))
          s.targets s'.targets) ∧
    (SQLClient.ReadTargetEntry project target.name s = .error .noMoreRows →
      SQLClient.UpsertTargetEntry now project target s =
        SQLClient.CreateTargetEntry now project target s) := by
  constructor
  · rintro ⟨te, hte⟩
    refine ⟨{ s with targets := s.targets.map fun t =>
        if t.project == project && t.name == target.name then
          { t with properties := target.properties, updatedAt := now }
        else t },
      by unfold SQLClient.UpsertTargetEntry; rw [hte]; rfl, rfl, rfl, ?_⟩
    show List.Forall₂ _ s.targets (s.targets.map _)
    rw [List.forall₂_map_right_iff, List.forall₂_same]
    intro x hx
    by_cases hc : (x.project == project && x.name == target.name) = true
    · rw [if_pos hc]
      simp only [Bool.and_eq_true, beq_iff_eq] at hc
      exact ⟨rfl, rfl, rfl, rfl, fun _ => ⟨rfl, rfl⟩, fun hn => absurd hc hn⟩
    · rw [if_neg hc]
      refine ⟨rfl, rfl, rfl, rfl, fun hk => absurd ?_ hc, fun _ => rfl⟩
      simp [hk.1, hk.2]
  · intro h
    unfold SQLClient.UpsertTargetEntry
    rw [h]
    rfl

/-- Witness for claim C5's theorem: upserting `infra_role` into the state
holding it updates it in place; upserting under the absent project `p2`
coincides with create. -/
theorem C5_upsert_frame_witness :
    (∃ s', SQLClient.UpsertTargetEntry 5 "p1" tgt2 sqlOneTarget = .ok s' ∧
        s'.projects = sqlOneTarget.projects ∧ s'.tokens = sqlOneTarget.tokens ∧
        List.Forall₂ (fun t t' : TargetEntry =>
            t'.createdAt = t.createdAt ∧ t'.name = t.name ∧
            t'.project = t.project ∧ t'.type = t.type ∧
            (t.project = "p1" ∧ t.name = tgt2.name →
              t'.properties = tgt2.properties ∧ t'.updatedAt = 5) ∧
            (¬(t.project = "p1" ∧ t.name = tgt2.name) → t' = t))
          sqlOneTarget.targets s'.targets) ∧
    SQLClient.UpsertTargetEntry 5 "p2" tgt2 sqlOneTarget =
      SQLClient.CreateTargetEntry 5 "p2" tgt2 sqlOneTarget :=
  ⟨(C5_upsert_frame 5 "p1" tgt2 sqlOneTarget).1 ⟨_, rfl⟩,
   (C5_upsert_frame 5 "p2" tgt2 sqlOneTarget).2 rfl⟩

/-- Claim C6: with the project present and no target of that key stored,
`CreateIfMissingTargetEntry` twice in sequence succeeds, the second call
changes nothing, and exactly one target with the key remains, carrying the
first call's timestamps. -/
theorem C6_createIfMissing_idempotent (now₁ now₂ : Nat) (project : String)
    (target : Target) (s : SQLState)
    (hproj : (s.projects.any fun e => e.projectID == project) = true)
    (habs : (s.targets.find? fun t =>
        t.project == project && t.name == target.name) = none) :
    ∃ s₁, SQLClient.CreateIfMissingTargetEntry now₁ project target s = .ok s₁ ∧
      SQLClient.CreateIfMissingTargetEntry now₂ project target s₁ = .ok s₁ ∧
      s₁.targets.filter (fun t => t.name == target.name && t.project == project)
        = [⟨now₁, target.name, project, target.properties, target.type, now₁⟩] := by
  have habs' := List.find?_eq_none.mp habs
  have hany : (s.targets.any fun t =>
      t.name == target.name && t.project == project) = false := by
    rw [← Bool.not_eq_true, List.any_eq_true]
    rintro ⟨x, hx, hb⟩
    refine habs' x hx ?_
    simp only [Bool.and_eq_true, beq_iff_eq] at hb ⊢
    exact ⟨hb.2, hb.1⟩
  set te : TargetEntry :=
    ⟨now₁, target.name, project, target.properties, target.type, now₁⟩ with hte
  set s₁ : SQLState := { s with targets := s.targets ++ [te] } with hs₁
  have hcreate : SQLClient.CreateTargetEntry now₁ project target s = .ok s₁ := by
    unfold SQLClient.CreateTargetEntry
    rw [hany, hproj]
    rfl
  have hfirst : SQLClient.CreateIfMissingTargetEntry now₁ project target s
      = .ok s₁ := by
    unfold SQLClient.CreateIfMissingTargetEntry SQLClient.ReadTargetEntry
    rw [habs]
    exact hcreate
  have hread : SQLClient.ReadTargetEntry project target.name s₁ = .ok te := by
    unfold SQLClient.ReadTargetEntry
    show (match (s.targets ++ [te]).find? fun t =>
        t.project == project && t.name == target.name with
      | some t => Except.ok t
      | none => Except.error DBError.noMoreRows) = Except.ok te
    rw [List.find?_append, habs]
    simp [hte, List.find?]
  have hsecond : SQLClient.CreateIfMissingTargetEntry now₂ project target s₁
      = .ok s₁ := by
    unfold SQLClient.CreateIfMissingTargetEntry
    rw [hread]
  refine ⟨s₁, hfirst, hsecond, ?_⟩
  show (s.targets ++ [te]).filter _ = [te]
  rw [List.filter_append]
  have h1 : (s.targets.filter fun t =>
      t.name == target.name && t.project == project) = [] := by
    rw [List.filter_eq_nil_iff]
    intro a ha hb
    refine habs' a ha ?_
    simp only [Bool.and_eq_true, beq_iff_eq] at hb ⊢
    exact ⟨hb.2, hb.1⟩
  rw [h1]
  simp [hte, List.filter]

/-- Witness for claim C6's theorem: creating `infra_role` twice, if
missing, in a store holding only project `p1`. -/
theorem C6_createIfMissing_idempotent_witness :
    ∃ s₁, SQLClient.CreateIfMissingTargetEntry 3 "p1" tgt1
        ⟨[⟨"p1", "repo"⟩], [], []⟩ = .ok s₁ ∧
      SQLClient.CreateIfMissingTargetEntry 7 "p1" tgt1 s₁ = .ok s₁ ∧
      s₁.targets.filter (fun t => t.name == tgt1.name && t.project == "p1")
        = [⟨3, tgt1.name, "p1", tgt1.properties, tgt1.type, 3⟩] :=
  C6_createIfMissing_idempotent 3 7 "p1" tgt1 ⟨[⟨"p1", "repo"⟩], [], []⟩
    (by decide) rfl

/-- Counterexample to claim C8: targeted deletes of identities that do not
resolve return success, not NotFound — on empty stores every delete
operation of both backends succeeds. -/
theorem C8_counterexample :
    SQLClient.DeleteTokenEntry "p" "t" SQLState.empty = .ok SQLState.empty ∧
    SQLClient.DeleteTargetEntry "p" "n" SQLState.empty = .ok SQLState.empty ∧
    SQLClient.DeleteProjectEntry "p" SQLState.empty = .ok SQLState.empty ∧
    DDBClient.DeleteTokenEntry "p" "t" DDBTable.empty = .ok DDBTable.empty ∧
    DDBClient.DeleteProjectEntry "p" DDBTable.empty = .ok DDBTable.empty :=
  ⟨rfl, rfl, rfl, rfl, rfl⟩

/-- Claim C8 (amended): an identity that does not resolve gives a NotFound
error on every single-entity read (`ErrNoMoreRows` in the SQL backend, the
"not found" error in the key-value backend), but a targeted delete of an
absent identity succeeds without error in both backends. -/
theorem C8_notfound_semantics (project token name : String) (s : SQLState)
    (tbl : DDBTable) :
    ((s.projects.find? fun e => e.projectID == project) = none →
      SQLClient.ReadProjectEntry project s = .error .noMoreRows) ∧
    ((s.targets.find? fun t => t.project == project && t.name == name) = none →
      SQLClient.ReadTargetEntry project name s = .error .noMoreRows) ∧
    ((s.tokens.find? fun t => t.tokenID == token) = none →
      SQLClient.ReadTokenEntry project token s = .error .noMoreRows) ∧
    (tbl.get ("PROJECT#" ++ project) "META" = none →
      DDBClient.ReadProjectEntry project tbl = .error .notFound) ∧
    (tbl.get ("PROJECT#" ++ project) ("TOKEN#" ++ token) = none →
      DDBClient.ReadTokenEntry project token tbl = .error .notFound) ∧
    (∃ s', SQLClient.DeleteProjectEntry project s = .ok s') ∧
    (∃ s', SQLClient.DeleteTargetEntry project name s = .ok s') ∧
    (∃ s', SQLClient.DeleteTokenEntry project token s = .ok s') ∧
    (∃ tbl', DDBClient.DeleteTokenEntry project token tbl = .ok tbl') ∧
    (tbl.queryPk ("PROJECT#" ++ project) = [] →
      DDBClient.DeleteProjectEntry project tbl = .ok tbl) := by
  refine ⟨?_, ?_, ?_, ?_, ?_, ⟨_, rfl⟩, ⟨_, rfl⟩, ⟨_, rfl⟩, ⟨_, rfl⟩, ?_⟩
  · intro h
    unfold SQLClient.ReadProjectEntry
    rw [h]
  · intro h
    unfold SQLClient.ReadTargetEntry
    rw [h]
  · intro h
    unfold SQLClient.ReadTokenEntry
    rw [h]
  · intro h
    unfold DDBClient.ReadProjectEntry
    rw [h]
  · intro h
    unfold DDBClient.ReadTokenEntry
    rw [h]
  · intro h
    unfold DDBClient.DeleteProjectEntry
    rw [h]
    rfl

/-- Witness for claim C8's amended theorem at empty stores and the
identities `p`, `t`, `n`. -/
theorem C8_notfound_semantics_witness :
    SQLClient.ReadProjectEntry "p" SQLState.empty = .error .noMoreRows ∧
    SQLClient.ReadTargetEntry "p" "n" SQLState.empty = .error .noMoreRows ∧
    SQLClient.ReadTokenEntry "p" "t" SQLState.empty = .error .noMoreRows ∧
    DDBClient.ReadProjectEntry "p" DDBTable.empty = .error .notFound ∧
    DDBClient.ReadTokenEntry "p" "t" DDBTable.empty = .error .notFound ∧
    DDBClient.DeleteProjectEntry "p" DDBTable.empty = .ok DDBTable.empty := by
  have h := C8_notfound_semantics "p" "t" "n" SQLState.empty DDBTable.empty
  exact ⟨h.1 rfl, h.2.1 rfl, h.2.2.1 rfl, h.2.2.2.1 rfl, h.2.2.2.2.1 rfl,
    h.2.2.2.2.2.2.2.2.2 rfl⟩

end Cello
